import Mathlib

/-!
Shallow embedding of the crunchio cursor buffer (src/crunchio.go; the final
iteration of the design in that file: the `Buffer` type with parent
references, mutexes and a cascading close flag).  Bytes are modelled as
natural numbers and byte slices as lists of naturals.  Go int64 offsets and
lengths are modelled as unbounded integers; none of the verified behaviours
approach 64-bit overflow.  Fallible operations return their Go results as
tuples with an `Option Err` error component; operations whose Go executions
can panic (runtime type-assertion failures, method calls through a nil store
pointer) return `Except GoPanic`.  Mutex acquisition and release have no
observable effect on the sequential semantics and are not modelled; the
`name` label is carried verbatim.  The defensive nil-receiver panics and the
"crunch buffer vanished" branches are unreachable for values of the model
(every root constructed by `newBuffer` holds a store, and every reference
chain bottoms out at a root), so they have no counterpart here.
-/

namespace Crunchio

/-- Overwrite a slice of a list starting at a given position: the effect of
the crunch write-range primitive for an in-bounds write. -/
def writeAt (l : List Nat) (off : Nat) (src : List Nat) : List Nat :=
  l.take off ++ src ++ l.drop (off + src.length)

/-- Backing store: the external crunch buffer, which the spec consumes as a
primitive with grow-by, read-range, write-range, current-capacity and an
internal cursor.  `data` is the byte array, `cur` the store's own cursor. -/
structure Crunch where
  data : List Nat
  cur : Int
deriving DecidableEq, Repr

/-- Grow-by: append `n` zero bytes (crunch `Grow`). -/
def Crunch.grow (c : Crunch) (n : Nat) : Crunch :=
  { c with data := c.data ++ List.replicate n 0 }

/-- Write-range at an absolute offset (crunch `WriteBytes`).  The Go store
panics on an out-of-range write; callers in the verified code always grow
first, so only in-bounds writes are exercised. -/
def Crunch.writeBytes (c : Crunch) (off : Int) (src : List Nat) : Crunch :=
  { c with data := writeAt c.data off.toNat src }

/-- Read-range at an absolute offset (crunch `ReadBytes`); only in-bounds
reads are exercised by the verified code. -/
def Crunch.readBytes (c : Crunch) (off : Int) (n : Int) : List Nat :=
  (c.data.drop off.toNat).take n.toNat

/-- Current capacity of the store (crunch `ByteCapacity`). -/
def Crunch.byteCapacity (c : Crunch) : Int :=
  (c.data.length : Int)

/-- Reposition the store's own cursor (crunch `SeekByte`). -/
def Crunch.seekByte (c : Crunch) (off : Int) (relative : Bool) : Crunch :=
  { c with cur := if relative then c.cur + off else off }

/-- Construct a store from initial slices, concatenated in order
(crunch `NewBuffer`). -/
def Crunch.new (slices : List (List Nat)) : Crunch :=
  ⟨slices.flatten, 0⟩

/-- Errors returned (not panicked) by the buffer operations: `io.EOF` and
the unsupported-abstract-type error. -/
inductive Err where
  | eof
  | unsupported
deriving DecidableEq, Repr

/-- Go runtime panics reachable in the modelled code: a failed interface
type assertion, and a method call through a nil crunch pointer. -/
inductive GoPanic where
  | interfaceConversion
  | nilDeref
deriving DecidableEq, Repr

/-- Cursor buffer: either a root owning a backing store, or a reference to a
parent buffer.  Fields mirror the Go struct: backing store or parent,
`length`, `offset`, `closed`, `name`. -/
inductive Buf where
  | root (store : Crunch) (length offset : Int) (closed : Bool) (name : String)
  | ref (parent : Buf) (length offset : Int) (closed : Bool) (name : String)
deriving DecidableEq, Repr

/-- NewBuffer: a root over a store built from the given slices, with
`length` initialised to the store capacity. -/
def Buf.newBuffer (name : String) (slices : List (List Nat)) : Buf :=
  .root (Crunch.new slices) (Crunch.new slices).byteCapacity 0 false name

/-- Resolved backing store: the store owned by the root at the bottom of the
parent chain (the value returned by the Go `Buffer()` accessor). -/
def Buf.storeOf : Buf → Crunch
  | .root st _ _ _ _ => st
  | .ref p _ _ _ _ => p.storeOf

/-- Own `length` field of this instance. -/
def Buf.lengthF : Buf → Int
  | .root _ l _ _ _ => l
  | .ref _ l _ _ _ => l

/-- Own `offset` field of this instance. -/
def Buf.offsetF : Buf → Int
  | .root _ _ o _ _ => o
  | .ref _ _ o _ _ => o

/-- Own `closed` flag of this instance. -/
def Buf.ownFlag : Buf → Bool
  | .root _ _ _ c _ => c
  | .ref _ _ _ c _ => c

/-- Whether this instance is a root (`parent == nil` in Go). -/
def Buf.isRoot : Buf → Bool
  | .root _ _ _ _ _ => true
  | .ref _ _ _ _ _ => false

/-- Closed: a reference reports its parent's closed state (its own flag is
never consulted); a root reports its own flag. -/
def Buf.closedQ : Buf → Bool
  | .root _ _ _ c _ => c
  | .ref p _ _ _ _ => p.closedQ

/-- Root node at the bottom of the parent chain. -/
def Buf.rootOf : Buf → Buf
  | .root st l o c n => .root st l o c n
  | .ref p _ _ _ _ => p.rootOf

/-- Length-refresh side effect of the Go `Buffer()` accessor: every node on
the chain updates its `length` field from the resolved store's capacity. -/
def Buf.refresh : Buf → Buf
  | .root st _ o c n => .root st st.byteCapacity o c n
  | .ref p _ o c n => .ref p.refresh p.storeOf.byteCapacity o c n

/-- Replace this instance's own `offset` field. -/
def Buf.setOffset : Buf → Int → Buf
  | .root st l _ c n, o => .root st l o c n
  | .ref p l _ c n, o => .ref p l o c n

/-- Replace this instance's own `length` field. -/
def Buf.setLength : Buf → Int → Buf
  | .root st _ o c n, l => .root st l o c n
  | .ref p _ o c n, l => .ref p l o c n

/-- Replace the backing store owned by the root at the bottom of the chain
(the effect of mutating through the pointer the Go `Buffer()` returns). -/
def Buf.setStore : Buf → Crunch → Buf
  | .root _ l o c n, st => .root st l o c n
  | .ref p l o c n, st => .ref (p.setStore st) l o c n

/-- Reference: a new buffer whose parent is the receiver; all other fields
are Go zero values. -/
def Buf.reference (b : Buf) : Buf :=
  .ref b 0 0 false ""

/-- Copy: a new root over a store built from the receiver's own crunch
pointer's bytes, mirroring the receiver's `length`.  On a reference the Go
code calls `Bytes()` through its nil own store pointer and panics. -/
def Buf.copy : Buf → Except GoPanic Buf
  | .root st l _ _ _ => .ok (.root (Crunch.new [st.data]) l 0 false "")
  | .ref _ _ _ _ _ => .error .nilDeref

/-- Close: set this instance's flag and recursively close the parent; the
returned error is the root's, which is always nil. -/
def Buf.close : Buf → Option Err × Buf
  | .root st l o _ n => (none, .root st l o true n)
  | .ref p l o _ n =>
    let res := p.close
    (res.1, .ref res.2 l o true n)

/-- ReadOffset: read at an explicit offset without touching any cursor.
Returns (bytes read, error, bytes, updated buffer). -/
def Buf.readOffset (b : Buf) (dstLen : Nat) (offset : Int) :
    Nat × Option Err × List Nat × Buf :=
  if b.closedQ then (0, some Err.eof, [], b)
  else
    let st := b.storeOf
    let b2 := b.refresh
    let toRead0 := b2.lengthF - offset
    let toRead := if toRead0 > (dstLen : Int) then (dstLen : Int) else toRead0
    if toRead = 0 then (0, none, [], b2)
    else
      let bytes := st.readBytes offset toRead
      (bytes.length, none, bytes, b2)

/-- Read: a reference delegates to the parent's ReadOffset at its own
offset and advances only its own offset; a root clamps an overrun offset to
its refreshed length, reads at most the remaining bytes and advances its
offset.  A zero-length remainder returns zero bytes with a nil error. -/
def Buf.read : Buf → Nat → Nat × Option Err × List Nat × Buf
  | .ref p l o c n, dstLen =>
    if (Buf.ref p l o c n).closedQ then (0, some Err.eof, [], .ref p l o c n)
    else
      let res := p.readOffset dstLen o
      (res.1, res.2.1, res.2.2.1, .ref res.2.2.2 l (o + (res.1 : Int)) c n)
  | .root st l o c n, dstLen =>
    if (Buf.root st l o c n).closedQ then (0, some Err.eof, [], .root st l o c n)
    else
      let len2 := st.byteCapacity
      let o2 := if o ≥ len2 then len2 else o
      let toRead0 := len2 - o2
      let toRead := if toRead0 > (dstLen : Int) then (dstLen : Int) else toRead0
      if toRead = 0 then (0, none, [], .root st len2 o2 c n)
      else
        let bytes := st.readBytes o2 toRead
        (bytes.length, none, bytes, .root st len2 (o2 + (bytes.length : Int)) c n)

/-- WriteOffset: grow-then-write at an explicit offset, moving no cursor.
The receiver's own `length` field takes the growth; the store mutation lands
on the root at the bottom of the chain. -/
def Buf.writeOffset (b : Buf) (src : List Nat) (offset : Int) :
    Nat × Option Err × Buf :=
  if b.closedQ then (0, some Err.eof, b)
  else
    let st := b.storeOf
    let b2 := b.refresh
    let toGrow := offset + (src.length : Int) - b2.lengthF
    let st2 := if toGrow > 0 then st.grow toGrow.toNat else st
    let b3 := if toGrow > 0 then b2.setLength (b2.lengthF + toGrow) else b2
    let st3 := st2.writeBytes offset src
    (src.length, none, b3.setStore st3)

/-- Write: a reference delegates to the parent's WriteOffset at its own
offset and advances only its own offset; a root grows the store as needed,
writes at its offset and advances its offset by the bytes written. -/
def Buf.write : Buf → List Nat → Nat × Option Err × Buf
  | .ref p l o c n, src =>
    if (Buf.ref p l o c n).closedQ then (0, some Err.eof, .ref p l o c n)
    else
      let res := p.writeOffset src o
      (res.1, res.2.1, .ref res.2.2 l (o + (res.1 : Int)) c n)
  | .root st l o c n, src =>
    if (Buf.root st l o c n).closedQ then (0, some Err.eof, .root st l o c n)
    else
      let len2 := st.byteCapacity
      let toGrow := o + (src.length : Int) - len2
      let st2 := if toGrow > 0 then st.grow toGrow.toNat else st
      let len3 := if toGrow > 0 then len2 + toGrow else len2
      let st3 := st2.writeBytes o src
      (src.length, none, .root st3 len3 (o + (src.length : Int)) c n)

/-- Seek: start sets the offset, current adds to it, end sets it to the
refreshed length minus the distance; any other whence falls through the
switch leaving the offset untouched and, like the recognised cases, returns
a nil error.  A root also repositions the store's own cursor. -/
def Buf.seek (b : Buf) (toPos : Int) (whence : Int) : Int × Option Err × Buf :=
  if b.closedQ then (0, some Err.eof, b)
  else
    let st := b.storeOf
    let b2 := b.refresh
    let b3 :=
      if whence = 0 then b2.setOffset toPos
      else if whence = 1 then b2.setOffset (b2.offsetF + toPos)
      else if whence = 2 then b2.setOffset (b2.lengthF - toPos)
      else b2
    let off := b3.offsetF
    let b4 := if b3.isRoot then b3.setStore (st.seekByte off false) else b3
    (off, none, b4)

/-- Bytes: the full contents of the resolved root's store, with the length
refresh the accessor performs as a side effect. -/
def Buf.bytes (b : Buf) : List Nat × Buf :=
  (b.storeOf.data, b.refresh)

/-- Dynamic values accepted by WriteAbstract, one constructor per arm of the
Go type switch that the claims exercise (a reader is carried as the bytes it
yields before a clean end of stream; a string as its UTF-8 bytes).  The
float and numeric-slice arms are omitted: no claim touches them and
floating point is outside the embedding.  `vOther` stands for any value
outside the switch. -/
inductive GoVal where
  | vReader (bs : List Nat)
  | vBytesIface (bs : List Nat)
  | vByte (v : Nat)
  | vBool (v : Bool)
  | vInt (v : Int)
  | vUint (v : Nat)
  | vByteSlice (bs : List Nat)
  | vString (s : List Nat)
  | vStrList (ss : List (List Nat))
  | vI16 (v : Int)
  | vI32 (v : Int)
  | vI64 (v : Int)
  | vU16 (v : Nat)
  | vU32 (v : Nat)
  | vU64 (v : Nat)
  | vOther
deriving DecidableEq, Repr

/-- Little-endian byte encoding of a natural in `w` bytes. -/
def leNat (w v : Nat) : List Nat :=
  (List.range w).map fun i => v / 256 ^ i % 256

/-- Little-endian two's-complement byte encoding of an integer in `w`
bytes. -/
def leInt (w : Nat) (v : Int) : List Nat :=
  leNat w (v.emod ((2 : Int) ^ (8 * w))).toNat

/-- Scratch bytes the Go switch builds for one abstract value, or the panic
it raises.  The multi-type arm `case byte, bool, int, uint` asserts
`data.(byte)`, which succeeds only when the dynamic type really is byte; the
arm `case []byte, string` asserts `data.([]byte)`, which succeeds only for a
byte slice.  For the other dynamic types of those arms the assertion is a
failed interface conversion, i.e. a runtime panic. -/
def encodeAbstract : GoVal → Except GoPanic (List Nat)
  | .vReader bs => .ok bs
  | .vBytesIface bs => .ok bs
  | .vByte v => .ok [v]
  | .vBool _ => .error .interfaceConversion
  | .vInt _ => .error .interfaceConversion
  | .vUint _ => .error .interfaceConversion
  | .vByteSlice bs => .ok bs
  | .vString _ => .error .interfaceConversion
  | .vStrList ss => .ok ss.flatten
  | .vI16 v => .ok (leInt 2 v)
  | .vI32 v => .ok (leInt 4 v)
  | .vI64 v => .ok (leInt 8 v)
  | .vU16 v => .ok (leNat 2 v)
  | .vU32 v => .ok (leNat 4 v)
  | .vU64 v => .ok (leNat 8 v)
  | .vOther => .ok []

/-- WriteAbstract: build the byte encoding in a scratch store, then perform
a single Write of those bytes against the receiver.  Unsupported values
report the unsupported-type error and write nothing; a failed type
assertion inside the switch propagates as a panic. -/
def Buf.writeAbstract (b : Buf) (data : GoVal) :
    Except GoPanic (Nat × Option Err × Buf) :=
  match data with
  | GoVal.vOther => .ok (0, some Err.unsupported, b)
  | d =>
    match encodeAbstract d with
    | .error p => .error p
    | .ok bs => .ok (b.write bs)

/-- Build a chain of references with the given field spines over a base
buffer: every node's parent is the node below, bottoming out at the base. -/
def mkChain : List (Int × Int × Bool × String) → Buf → Buf
  | [], base => base
  | f :: rest, base => .ref (mkChain rest base) f.1 f.2.1 f.2.2.1 f.2.2.2

/-! Small facts about the accessors and the refresh, field-update and close
operations, used throughout the claim proofs. -/

@[simp] theorem storeOf_refresh (b : Buf) : b.refresh.storeOf = b.storeOf := by
  induction b with
  | root st l o c n => rfl
  | ref p l o c n ih => simp [Buf.refresh, Buf.storeOf, ih]

@[simp] theorem closedQ_refresh (b : Buf) : b.refresh.closedQ = b.closedQ := by
  induction b with
  | root st l o c n => rfl
  | ref p l o c n ih => simp [Buf.refresh, Buf.closedQ, ih]

@[simp] theorem offsetF_refresh (b : Buf) : b.refresh.offsetF = b.offsetF := by
  cases b <;> rfl

@[simp] theorem lengthF_refresh (b : Buf) :
    b.refresh.lengthF = (b.storeOf.data.length : Int) := by
  cases b <;> rfl

@[simp] theorem isRoot_refresh (b : Buf) : b.refresh.isRoot = b.isRoot := by
  cases b <;> rfl

@[simp] theorem offsetF_setOffset (b : Buf) (v : Int) :
    (b.setOffset v).offsetF = v := by
  cases b <;> rfl

@[simp] theorem closedQ_setOffset (b : Buf) (v : Int) :
    (b.setOffset v).closedQ = b.closedQ := by
  cases b <;> rfl

@[simp] theorem storeOf_setOffset (b : Buf) (v : Int) :
    (b.setOffset v).storeOf = b.storeOf := by
  cases b <;> rfl

@[simp] theorem lengthF_setOffset (b : Buf) (v : Int) :
    (b.setOffset v).lengthF = b.lengthF := by
  cases b <;> rfl

@[simp] theorem isRoot_setOffset (b : Buf) (v : Int) :
    (b.setOffset v).isRoot = b.isRoot := by
  cases b <;> rfl

@[simp] theorem offsetF_setLength (b : Buf) (v : Int) :
    (b.setLength v).offsetF = b.offsetF := by
  cases b <;> rfl

@[simp] theorem lengthF_setLength (b : Buf) (v : Int) :
    (b.setLength v).lengthF = v := by
  cases b <;> rfl

@[simp] theorem closedQ_setLength (b : Buf) (v : Int) :
    (b.setLength v).closedQ = b.closedQ := by
  cases b <;> rfl

@[simp] theorem storeOf_setLength (b : Buf) (v : Int) :
    (b.setLength v).storeOf = b.storeOf := by
  cases b <;> rfl

@[simp] theorem storeOf_setStore (b : Buf) (st : Crunch) :
    (b.setStore st).storeOf = st := by
  induction b with
  | root st0 l o c n => rfl
  | ref p l o c n ih => simp [Buf.setStore, Buf.storeOf, ih]

@[simp] theorem closedQ_setStore (b : Buf) (st : Crunch) :
    (b.setStore st).closedQ = b.closedQ := by
  induction b with
  | root st0 l o c n => rfl
  | ref p l o c n ih => simp [Buf.setStore, Buf.closedQ, ih]

@[simp] theorem offsetF_setStore (b : Buf) (st : Crunch) :
    (b.setStore st).offsetF = b.offsetF := by
  cases b <;> rfl

@[simp] theorem lengthF_setStore (b : Buf) (st : Crunch) :
    (b.setStore st).lengthF = b.lengthF := by
  cases b <;> rfl

@[simp] theorem isRoot_setStore (b : Buf) (st : Crunch) :
    (b.setStore st).isRoot = b.isRoot := by
  cases b <;> rfl

@[simp] theorem close_err (b : Buf) : b.close.1 = none := by
  induction b with
  | root st l o c n => rfl
  | ref p l o c n ih => simp [Buf.close, ih]

theorem closedQ_eq_rootOf_ownFlag (b : Buf) :
    b.closedQ = b.rootOf.ownFlag := by
  induction b with
  | root st l o c n => rfl
  | ref p l o c n ih => simpa [Buf.closedQ, Buf.rootOf] using ih

@[simp] theorem closedQ_close (b : Buf) : b.close.2.closedQ = true := by
  induction b with
  | root st l o c n => rfl
  | ref p l o c n ih => simpa [Buf.close, Buf.closedQ] using ih

@[simp] theorem rootOf_ownFlag_close (b : Buf) :
    b.close.2.rootOf.ownFlag = true := by
  induction b with
  | root st l o c n => rfl
  | ref p l o c n ih => simpa [Buf.close, Buf.rootOf] using ih

@[simp] theorem closedQ_mkChain (spine : List (Int × Int × Bool × String))
    (base : Buf) : (mkChain spine base).closedQ = base.closedQ := by
  induction spine with
  | nil => rfl
  | cons f rest ih => simp [mkChain, Buf.closedQ, ih]

theorem writeAt_length (l src : List Nat) (o : Nat)
    (h : o + src.length ≤ l.length) :
    (writeAt l o src).length = l.length := by
  simp only [writeAt, List.length_append, List.length_take, List.length_drop]
  omega

theorem writeAt_reads (l src : List Nat) (o : Nat) (hle : o ≤ l.length) :
    ((writeAt l o src).drop o).take src.length = src := by
  unfold writeAt
  rw [List.append_assoc, List.drop_left' (by simp; omega), List.take_left' rfl]

/-- Effect of a Write on a root that is not closed: the returned count is
the source length, no error, the offset advances past the written bytes,
the length field becomes the larger of the old capacity and the write's
end, and the store holds the source at the write offset. -/
theorem root_write_spec (st : Crunch) (l o : Int) (nm : String)
    (src : List Nat) (h0 : 0 ≤ o) :
    ∃ d2 : List Nat,
      (Buf.root st l o false nm).write src =
        (src.length, none,
          Buf.root ⟨d2, st.cur⟩ (max (st.data.length : Int) (o + src.length))
            (o + src.length) false nm) ∧
      d2.length = max st.data.length (o.toNat + src.length) ∧
      (d2.drop o.toNat).take src.length = src := by
  have ho2 : ((o.toNat : Int)) = o := Int.toNat_of_nonneg h0
  by_cases hg : o + (src.length : Int) - (st.data.length : Int) > 0
  · refine ⟨writeAt (st.data ++
        List.replicate (o + (src.length : Int) -
          (st.data.length : Int)).toNat 0) o.toNat src, ?_, ?_, ?_⟩
    · simp only [Buf.write, Buf.closedQ, Bool.false_eq_true, if_false,
        Crunch.byteCapacity, if_pos hg, Crunch.grow, Crunch.writeBytes]
      refine congrArg _ (congrArg _ ?_)
      have : (st.data.length : Int) + (o + (src.length : Int) -
          (st.data.length : Int)) = o + src.length := by omega
      simp only [this]
      have hmax : max (st.data.length : Int) (o + src.length) =
          o + src.length := by omega
      rw [hmax]
    · rw [writeAt_length]
      · simp only [List.length_append, List.length_replicate]
        omega
      · simp only [List.length_append, List.length_replicate]
        omega
    · apply writeAt_reads
      simp only [List.length_append, List.length_replicate]
      omega
  · refine ⟨writeAt st.data o.toNat src, ?_, ?_, ?_⟩
    · simp only [Buf.write, Buf.closedQ, Bool.false_eq_true, if_false,
        Crunch.byteCapacity, if_neg hg, Crunch.writeBytes]
      refine congrArg _ (congrArg _ ?_)
      have hmax : max (st.data.length : Int) (o + src.length) =
          (st.data.length : Int) := by omega
      rw [hmax]
    · rw [writeAt_length] <;> omega
    · apply writeAt_reads
      omega

/-- Effect of Seek to an absolute position on a root that is not closed:
the offset is set verbatim, the length field refreshes to the capacity, the
store cursor follows, and no error is returned. -/
theorem root_seek_start (st : Crunch) (l o v : Int) (nm : String) :
    (Buf.root st l o false nm).seek v 0 =
      (v, none, Buf.root ⟨st.data, v⟩ (st.data.length : Int) v false nm) := by
  simp [Buf.seek, Buf.closedQ, Buf.refresh, Buf.setOffset, Buf.isRoot,
    Buf.setStore, Buf.storeOf, Buf.offsetF, Crunch.seekByte,
    Crunch.byteCapacity]

/-- Effect of a Read from offset zero on a root that is not closed, when
the destination does not exceed the stored bytes: the destination is filled
with the store's prefix, the offset advances by the bytes read, and no
error is returned. -/
theorem root_read_front (st : Crunch) (l : Int) (nm : String) (n : Nat)
    (hn : n ≤ st.data.length) :
    (Buf.root st l 0 false nm).read n =
      (n, none, st.data.take n,
        Buf.root st (st.data.length : Int) (n : Int) false nm) := by
  rcases Nat.eq_zero_or_pos n with hz | hp
  · subst hz
    simp only [Buf.read, Buf.closedQ, Bool.false_eq_true, if_false,
      Crunch.byteCapacity]
    have hcl : ((0 : Int) ≥ (st.data.length : Int)) ↔ st.data.length = 0 := by
      omega
    by_cases hd : st.data.length = 0
    · simp [hd]
    · have h1 : ¬ ((0 : Int) ≥ (st.data.length : Int)) := by omega
      rw [if_neg h1]
      have h2 : (st.data.length : Int) - 0 > ((0 : Nat) : Int) ↔
          0 < st.data.length := by omega
      rw [if_pos (by omega : (st.data.length : Int) - 0 > ((0 : Nat) : Int))]
      simp
  · have hdl : 0 < st.data.length := lt_of_lt_of_le hp hn
    simp only [Buf.read, Buf.closedQ, Bool.false_eq_true, if_false,
      Crunch.byteCapacity]
    rw [if_neg (by omega : ¬ ((0 : Int) ≥ (st.data.length : Int)))]
    by_cases hlt : (st.data.length : Int) - 0 > ((n : Nat) : Int)
    · rw [if_pos hlt]
      rw [if_neg (by omega : ¬ ((n : Int) = 0))]
      simp only [Crunch.readBytes, Int.toNat_ofNat, Int.toNat_natCast]
      have hlen : ((st.data.drop (0 : Int).toNat).take n).length = n := by
        simp; omega
      rw [hlen]
      simp
    · rw [if_neg hlt]
      rw [if_neg (by omega : ¬ ((st.data.length : Int) - 0 = 0))]
      simp only [Crunch.readBytes]
      have he : n = st.data.length := by omega
      subst he
      have hlen : ((st.data.drop (0 : Int).toNat).take
          ((st.data.length : Int) - 0).toNat).length = st.data.length := by
        simp
      rw [hlen]
      simp

/-- Effect of a WriteOffset at offset zero on a root that is not closed:
the source lands at the front of the store, the length field becomes the
larger of the old capacity and the source length, and the root's own
cursor offset is untouched. -/
theorem root_writeOffset_zero (st : Crunch) (l o : Int) (nm : String)
    (src : List Nat) :
    ∃ d2 : List Nat,
      (Buf.root st l o false nm).writeOffset src 0 =
        (src.length, none,
          Buf.root ⟨d2, st.cur⟩ (max (st.data.length : Int) (src.length : Int))
            o false nm) ∧
      d2.length = max st.data.length src.length ∧
      d2.take src.length = src := by
  by_cases hg : (0 : Int) + (src.length : Int) - (st.data.length : Int) > 0
  · refine ⟨writeAt (st.data ++
        List.replicate ((0 : Int) + (src.length : Int) -
          (st.data.length : Int)).toNat 0) (0 : Int).toNat src, ?_, ?_, ?_⟩
    · simp only [Buf.writeOffset, Buf.closedQ, Bool.false_eq_true, if_false,
        Buf.storeOf, Buf.refresh, Crunch.byteCapacity, Buf.lengthF,
        if_pos hg, Crunch.grow, Crunch.writeBytes, Buf.setLength,
        Buf.setStore]
      refine congrArg _ (congrArg _ ?_)
      have h1 : (st.data.length : Int) + ((0 : Int) + (src.length : Int) -
          (st.data.length : Int)) = src.length := by omega
      have h2 : max (st.data.length : Int) (src.length : Int) =
          (src.length : Int) := by omega
      rw [h1, h2]
    · rw [writeAt_length]
      · simp only [List.length_append, List.length_replicate]
        omega
      · simp only [List.length_append, List.length_replicate]
        omega
    · have := writeAt_reads (st.data ++
        List.replicate ((0 : Int) + (src.length : Int) -
          (st.data.length : Int)).toNat 0) src (0 : Int).toNat (by simp)
      simpa using this
  · refine ⟨writeAt st.data (0 : Int).toNat src, ?_, ?_, ?_⟩
    · simp only [Buf.writeOffset, Buf.closedQ, Bool.false_eq_true, if_false,
        Buf.storeOf, Buf.refresh, Crunch.byteCapacity, Buf.lengthF,
        if_neg hg, Crunch.writeBytes, Buf.setStore]
      refine congrArg _ (congrArg _ ?_)
      have h2 : max (st.data.length : Int) (src.length : Int) =
          (st.data.length : Int) := by omega
      rw [h2]
    · rw [writeAt_length] <;> omega
    · have := writeAt_reads st.data src (0 : Int).toNat (by simp)
      simpa using this

/-- C1: writing a byte sequence to a freshly created root and reading back
its length from offset zero (after seeking to the start) yields exactly
the sequence; the Write reports the full length with no error, and the
Read reports the full length with no error. -/
theorem c1_roundtrip (s : List Nat) :
    ((Buf.newBuffer "" []).write s).1 = s.length ∧
    ((Buf.newBuffer "" []).write s).2.1 = none ∧
    ((((Buf.newBuffer "" []).write s).2.2.seek 0 0).2.2.read s.length).2.2.1
      = s ∧
    ((((Buf.newBuffer "" []).write s).2.2.seek 0 0).2.2.read s.length).1
      = s.length ∧
    ((((Buf.newBuffer "" []).write s).2.2.seek 0 0).2.2.read s.length).2.1
      = none := by
  obtain ⟨d2, hw, hlen, hread⟩ :=
    root_write_spec ⟨[], 0⟩ 0 0 "" s le_rfl
  simp only [List.length_nil, Nat.cast_zero, zero_add, Nat.zero_add,
    List.drop_zero, Int.toNat_zero] at hw hlen hread
  have hmax : max (0 : Int) (s.length : Int) = (s.length : Int) := by omega
  have hmaxn : max 0 s.length = s.length := by omega
  rw [hmax] at hw
  rw [hmaxn] at hlen
  have hd2 : d2 = s := by
    rw [← hlen, List.take_length] at hread
    exact hread
  subst hd2
  have hnb : Buf.newBuffer "" [] = Buf.root ⟨[], 0⟩ 0 0 false "" := rfl
  rw [hnb, hw]
  have hseek : (Buf.root (⟨d2, (0 : Int)⟩ : Crunch) (d2.length : Int)
      (d2.length : Int) false "").seek 0 0 =
      (0, none, Buf.root ⟨d2, 0⟩ (d2.length : Int) 0 false "") :=
    root_seek_start _ _ _ _ _
  simp only []
  rw [hseek]
  simp only []
  rw [root_read_front ⟨d2, 0⟩ (d2.length : Int) "" d2.length le_rfl]
  simp [List.take_length]

/-- C2: on a root whose logical length `L` matches its store capacity, a
write of a non-empty source at cursor offset `o` with `o + n > L` grows the
logical length to exactly `o + n`, grows the backing store to the same
size, places the source at offset `o`, advances the offset by `n`, and
reports `n` bytes written with no error; moreover no root write ever
decreases the logical length below the store capacity. -/
theorem c2_write_grows (st : Crunch) (o : Int) (nm : String)
    (src : List Nat) (ho : 0 ≤ o) (hn : 0 < src.length)
    (hg : (st.data.length : Int) < o + src.length) :
    ((Buf.root st (st.data.length : Int) o false nm).write src).1
      = src.length ∧
    ((Buf.root st (st.data.length : Int) o false nm).write src).2.1
      = none ∧
    ((Buf.root st (st.data.length : Int) o false nm).write src).2.2.lengthF
      = o + src.length ∧
    ((((Buf.root st (st.data.length : Int) o false nm).write
        src).2.2.storeOf.data.length : Int)) = o + src.length ∧
    ((Buf.root st (st.data.length : Int) o false nm).write
        src).2.2.storeOf.readBytes o src.length = src ∧
    ((Buf.root st (st.data.length : Int) o false nm).write src).2.2.offsetF
      = o + src.length ∧
    (∀ (st2 : Crunch) (l2 o2 : Int) (nm2 : String) (src2 : List Nat),
      (st2.data.length : Int) ≤
        ((Buf.root st2 l2 o2 false nm2).write src2).2.2.lengthF) := by
  obtain ⟨d2, hw, hlen, hread⟩ :=
    root_write_spec st (st.data.length : Int) o nm src ho
  have hmax : max (st.data.length : Int) (o + src.length)
      = o + src.length := by omega
  rw [hmax] at hw
  rw [hw]
  have ho2 : ((o.toNat : Int)) = o := Int.toNat_of_nonneg ho
  refine ⟨rfl, rfl, rfl, ?_, ?_, rfl, ?_⟩
  · simp only [Buf.storeOf]
    rw [hlen]
    omega
  · simp only [Buf.storeOf, Crunch.readBytes, Int.toNat_natCast]
    exact hread
  · intro st2 l2 o2 nm2 src2
    by_cases hg2 : o2 + (src2.length : Int) - (st2.data.length : Int) > 0
    · simp only [Buf.write, Buf.closedQ, Bool.false_eq_true, if_false,
        Crunch.byteCapacity, if_pos hg2, Buf.lengthF]
      omega
    · simp only [Buf.write, Buf.closedQ, Bool.false_eq_true, if_false,
        Crunch.byteCapacity, if_neg hg2, Buf.lengthF]
      omega

/-- Witness for C2 at a concrete input: a root holding one byte, cursor at
offset 1, written with two bytes, grows to logical length 3. -/
theorem c2_write_grows_witness :
    (0 : Int) ≤ 1 ∧ 0 < [8, 9].length ∧
    (((Crunch.mk [5] 0).data.length : Int)) < 1 + [8, 9].length ∧
    ((Buf.root (Crunch.mk [5] 0) (((Crunch.mk [5] 0).data.length : Int)) 1
        false "w").write [8, 9]).2.2.lengthF = 1 + [8, 9].length ∧
    ((Buf.root (Crunch.mk [5] 0) (((Crunch.mk [5] 0).data.length : Int)) 1
        false "w").write [8, 9]).2.2.storeOf.readBytes 1 [8, 9].length
      = [8, 9] := by
  have h := c2_write_grows ⟨[5], 0⟩ 1 "w" [8, 9] (by norm_num)
    (by norm_num) (by norm_num)
  exact ⟨by norm_num, by norm_num, by norm_num, h.2.2.1, h.2.2.2.2.1⟩

/-- C3: a reference freshly created from a non-closed root with cursor at
offset zero, when written through, delegates to the root's WriteOffset at
the reference's own offset zero: the write reports the source length with
no error, only the reference's offset advances, the root's offset stays
put, and reading the root at offset zero afterwards observes exactly the
written bytes. -/
theorem c3_reference_aliasing (st : Crunch) (l : Int) (nm : String)
    (src : List Nat) :
    ((Buf.root st l 0 false nm).reference.write src).1 = src.length ∧
    ((Buf.root st l 0 false nm).reference.write src).2.1 = none ∧
    ∃ r2 : Buf,
      ((Buf.root st l 0 false nm).reference.write src).2.2 =
        Buf.ref r2 0 (src.length : Int) false "" ∧
      r2.offsetF = 0 ∧ r2.isRoot = true ∧
      (r2.read src.length).2.2.1 = src ∧
      (r2.read src.length).1 = src.length ∧
      (r2.read src.length).2.1 = none := by
  obtain ⟨d2, hwo, hlen, htake⟩ := root_writeOffset_zero st l 0 nm src
  have hstep : (Buf.root st l 0 false nm).reference.write src =
      (src.length, none,
        Buf.ref (Buf.root ⟨d2, st.cur⟩
          (max (st.data.length : Int) (src.length : Int)) 0 false nm)
          0 ((0 : Int) + (src.length : Int)) false "") := by
    simp only [Buf.reference, Buf.write, Buf.closedQ, Bool.false_eq_true,
      if_false, hwo]
  rw [hstep]
  have hz : (0 : Int) + (src.length : Int) = (src.length : Int) := by omega
  rw [hz]
  have hrp := root_read_front ⟨d2, st.cur⟩
    (max (st.data.length : Int) (src.length : Int)) nm src.length
    (by simp; omega)
  refine ⟨rfl, rfl, ⟨Buf.root ⟨d2, st.cur⟩
    (max (st.data.length : Int) (src.length : Int)) 0 false nm,
    rfl, rfl, rfl, ?_, ?_, ?_⟩⟩
  · rw [hrp]
    simpa using htake
  · rw [hrp]
  · rw [hrp]

/-- C4 counterexample: on a root holding three bytes, Seek(0, end) followed
by a Read into a four-byte destination returns zero bytes with a nil
error — a plain zero-byte success — and not the end-of-data condition the
claim demands. -/
theorem c4_counterexample :
    (((Buf.newBuffer "x" [[1, 2, 3]]).seek 0 2).2.2.read 4).1 = 0 ∧
    (((Buf.newBuffer "x" [[1, 2, 3]]).seek 0 2).2.2.read 4).2.1 = none ∧
    ¬ ((((Buf.newBuffer "x" [[1, 2, 3]]).seek 0 2).2.2.read 4).2.1
        = some Err.eof) := by
  refine ⟨rfl, rfl, by decide⟩

/-- C4 amended: for every non-closed buffer, Seek(0, end) followed by a
Read into a non-empty destination returns zero bytes read with a nil
error (a plain zero-byte success): the offset sits at the refreshed
logical end, so no bytes remain and the zero-remainder branch returns
without the end-of-data condition. -/
theorem c4_amended (b : Buf) (h : b.closedQ = false) (n : Nat)
    (hn : 0 < n) :
    ((b.seek 0 2).2.2.read n).1 = 0 ∧
    ((b.seek 0 2).2.2.read n).2.1 = none := by
  cases b with
  | root st l o c nm =>
    simp only [Buf.closedQ] at h
    subst h
    have hseek : (Buf.root st l o false nm).seek 0 2 =
        ((st.data.length : Int), none,
          Buf.root ⟨st.data, (st.data.length : Int)⟩ (st.data.length : Int)
            (st.data.length : Int) false nm) := by
      simp [Buf.seek, Buf.closedQ, Buf.refresh, Crunch.byteCapacity,
        Buf.setOffset, Buf.offsetF, Buf.lengthF, Buf.isRoot, Buf.setStore,
        Buf.storeOf, Crunch.seekByte]
    rw [hseek]
    simp only [Buf.read, Buf.closedQ, Bool.false_eq_true, if_false,
      Crunch.byteCapacity]
    rw [if_pos (le_refl ((st.data.length : Int)))]
    rw [if_neg (by omega : ¬ ((st.data.length : Int) -
      (st.data.length : Int) > ((n : Nat) : Int)))]
    rw [if_pos (by omega : (st.data.length : Int) -
      (st.data.length : Int) = 0)]
    exact ⟨rfl, rfl⟩
  | ref p l o c nm =>
    simp only [Buf.closedQ] at h
    have hseek : (Buf.ref p l o c nm).seek 0 2 =
        ((p.storeOf.data.length : Int), none,
          Buf.ref p.refresh (p.storeOf.data.length : Int)
            (p.storeOf.data.length : Int) c nm) := by
      simp [Buf.seek, Buf.closedQ, h, Buf.refresh, Crunch.byteCapacity,
        Buf.setOffset, Buf.offsetF, Buf.lengthF, Buf.isRoot, Buf.storeOf]
    rw [hseek]
    simp only [Buf.read, Buf.closedQ, closedQ_refresh, h,
      Bool.false_eq_true, if_false]
    have hro : p.refresh.readOffset n (p.storeOf.data.length : Int) =
        (0, none, [], p.refresh.refresh) := by
      simp only [Buf.readOffset, closedQ_refresh, h, Bool.false_eq_true,
        if_false, lengthF_refresh, storeOf_refresh]
      rw [if_neg (by omega : ¬ ((p.storeOf.data.length : Int) -
        (p.storeOf.data.length : Int) > ((n : Nat) : Int)))]
      rw [if_pos (by omega : (p.storeOf.data.length : Int) -
        (p.storeOf.data.length : Int) = 0)]
    rw [hro]
    exact ⟨rfl, rfl⟩

/-- Witness for C4 amended at a concrete input: a fresh two-byte root,
sought to the end and read into a one-byte destination. -/
theorem c4_amended_witness :
    (Buf.newBuffer "x" [[1, 2]]).closedQ = false ∧ 0 < 1 ∧
    ((((Buf.newBuffer "x" [[1, 2]]).seek 0 2).2.2.read 1).1 = 0 ∧
      (((Buf.newBuffer "x" [[1, 2]]).seek 0 2).2.2.read 1).2.1 = none) :=
  ⟨rfl, by decide, c4_amended (Buf.newBuffer "x" [[1, 2]]) rfl 1 (by decide)⟩

/-- C5 (evaluation at the failing input): Seek with the unrecognized
whence 3 on a fresh non-closed root falls through the switch, returns the
unchanged offset with a nil error instead of the invalid-seek-mode error
the spec requires. -/
theorem c5_invalid_whence_nil_error :
    (Buf.newBuffer "b" []).seek 5 3 =
      (0, none, Buf.root ⟨[], 0⟩ 0 0 false "b") ∧
    ((Buf.newBuffer "b" []).seek 5 3).2.2.offsetF
      = (Buf.newBuffer "b" []).offsetF := by
  exact ⟨by decide, rfl⟩

/-- C6: closing any buffer of a parent chain returns a nil error, sets the
closed state observed by the buffer itself, by the root at the bottom of
its chain, and by every reference chain resolving to that root; and every
operation on a buffer whose Closed resolves true — read, write,
read-at-offset, write-at-offset, seek — fails immediately with the
end-of-data closed-resource condition, leaving offset, length and stored
bytes untouched. -/
theorem c6_close_cascade (b : Buf) :
    b.close.1 = none ∧
    b.close.2.closedQ = true ∧
    b.close.2.rootOf.ownFlag = true ∧
    (∀ spine : List (Int × Int × Bool × String),
      (mkChain spine b.close.2.rootOf).closedQ = true) ∧
    (∀ c2 : Buf, c2.closedQ = true →
      (∀ n, c2.read n = (0, some Err.eof, [], c2)) ∧
      (∀ src, c2.write src = (0, some Err.eof, c2)) ∧
      (∀ src off, c2.writeOffset src off = (0, some Err.eof, c2)) ∧
      (∀ n off, c2.readOffset n off = (0, some Err.eof, [], c2)) ∧
      (∀ tv wh, c2.seek tv wh = (0, some Err.eof, c2))) := by
  have hroot : b.close.2.rootOf.closedQ = true := by
    rw [closedQ_eq_rootOf_ownFlag] at *
    have : b.close.2.rootOf.rootOf = b.close.2.rootOf := by
      generalize b.close.2 = x
      induction x with
      | root st l o c n => rfl
      | ref p l o c n ih => simpa [Buf.rootOf] using ih
    rw [this]
    exact rootOf_ownFlag_close b
  refine ⟨close_err b, closedQ_close b, rootOf_ownFlag_close b, ?_, ?_⟩
  · intro spine
    rw [closedQ_mkChain]
    exact hroot
  · intro c2 h
    refine ⟨?_, ?_, ?_, ?_, ?_⟩
    · intro n
      cases c2 with
      | root st l o c nm => simp [Buf.read, h]
      | ref p l o c nm => simp [Buf.read, h]
    · intro src
      cases c2 with
      | root st l o c nm => simp [Buf.write, h]
      | ref p l o c nm => simp [Buf.write, h]
    · intro src off
      simp [Buf.writeOffset, h]
    · intro n off
      simp [Buf.readOffset, h]
    · intro tv wh
      simp [Buf.seek, h]

/-- Witness for C6 at a concrete input: closing a reference of a one-byte
root makes the closed state observable and a subsequent read fail with
end-of-data leaving the buffer untouched. -/
theorem c6_close_cascade_witness :
    (Buf.newBuffer "r" [[7]]).reference.close.2.closedQ = true ∧
    (Buf.newBuffer "r" [[7]]).reference.close.2.read 1 =
      (0, some Err.eof, [], (Buf.newBuffer "r" [[7]]).reference.close.2) := by
  have h := c6_close_cascade (Buf.newBuffer "r" [[7]]).reference
  exact ⟨h.2.1, (h.2.2.2.2 _ h.2.1).1 1⟩

/-- C7 counterexample: Copy invoked on a reference does not return a
buffer at all — the Go code reads the receiver's own nil store pointer and
panics — refuting the claim's quantification over every buffer. -/
theorem c7_counterexample :
    (Buf.newBuffer "r" [[1, 2]]).reference.copy =
      Except.error GoPanic.nilDeref := rfl

/-- C7 amended: for every root buffer, Copy returns a new root whose
backing store is a fresh allocation holding a snapshot of the receiver's
full byte contents and whose logical length mirrors the receiver's; the
copy resolves to its own store, a write through the copy produces a
self-contained root while the original still resolves to its old store,
and a write through the original produces a root while the copy's
resolved bytes are still the snapshot. -/
theorem c7_copy_decoupled (st : Crunch) (l o : Int) (c : Bool)
    (nm : String) :
    (Buf.root st l o c nm).copy =
      Except.ok (Buf.root ⟨st.data, 0⟩ l 0 false "") ∧
    (Buf.root ⟨st.data, 0⟩ l 0 false "").isRoot = true ∧
    (∀ src : List Nat, ∃ st2 : Crunch, ∃ l2 : Int,
      ((Buf.root ⟨st.data, 0⟩ l 0 false "").write src).2.2 =
        Buf.root st2 l2 (src.length : Int) false "" ∧
      (Buf.root st l o c nm).storeOf.data = st.data) ∧
    (∀ src : List Nat, ∃ st3 : Crunch, ∃ l3 o3 : Int,
      ((Buf.root st l o c nm).write src).2.2 =
        Buf.root st3 l3 o3 c nm ∧
      (Buf.root ⟨st.data, 0⟩ l 0 false "").storeOf.data = st.data) := by
  refine ⟨by simp [Buf.copy, Crunch.new], rfl, ?_, ?_⟩
  · intro src
    obtain ⟨d2, hw, -, -⟩ :=
      root_write_spec ⟨st.data, 0⟩ l 0 "" src le_rfl
    rw [zero_add] at hw
    refine ⟨⟨d2, 0⟩, max (st.data.length : Int) (src.length : Int),
      ?_, rfl⟩
    rw [hw]
  · intro src
    cases c with
    | false =>
      simp only [Buf.write, Buf.closedQ, Bool.false_eq_true, if_false,
        Crunch.byteCapacity]
      exact ⟨_, _, _, rfl, rfl⟩
    | true =>
      simp only [Buf.write, Buf.closedQ, if_true]
      exact ⟨st, l, o, rfl, rfl⟩

/-- C8 (evaluation at the failing input): the scenario's first step,
WriteAbstract of the string AB, hits the combined byte-slice/string switch
arm whose type assertion to a byte slice fails on a string and panics, so
the scenario never reaches the final state the claim demands; the second
step alone, WriteAbstract of the 16-bit value 1, would write the two
little-endian bytes. -/
theorem c8_writeAbstract_string_panics :
    (Buf.newBuffer "" []).writeAbstract (GoVal.vString [65, 66]) =
      Except.error GoPanic.interfaceConversion ∧
    (Buf.newBuffer "" []).writeAbstract (GoVal.vU16 1) =
      Except.ok (2, none, Buf.root ⟨[1, 0], 0⟩ 2 2 false "") := by
  exact ⟨rfl, rfl⟩

/-- C9 (evaluation at the failing inputs): WriteAbstract of a boolean, an
int or a uint hits the multi-type switch arm whose assertion to byte fails
at runtime and panics instead of writing one byte; only an input whose
dynamic type is byte itself is written as a single byte with success. -/
theorem c9_one_byte_inputs :
    (Buf.newBuffer "" []).writeAbstract (GoVal.vBool true) =
      Except.error GoPanic.interfaceConversion ∧
    (Buf.newBuffer "" []).writeAbstract (GoVal.vInt 5) =
      Except.error GoPanic.interfaceConversion ∧
    (Buf.newBuffer "" []).writeAbstract (GoVal.vUint 5) =
      Except.error GoPanic.interfaceConversion ∧
    (Buf.newBuffer "" []).writeAbstract (GoVal.vByte 7) =
      Except.ok (1, none, Buf.root ⟨[7], 0⟩ 1 1 false "") := by
  exact ⟨rfl, rfl, rfl, rfl⟩

/-- C10: Seek performs no bounds validation: on any non-closed buffer and
any integer target, seeking from the start succeeds with a nil error and
sets and returns exactly that target, negative or beyond the logical
length alike; under the current whence the result is the old offset plus
the target, and under the end whence the refreshed logical length minus
the target, again unchecked and error-free. -/
theorem c10_seek_unchecked (b : Buf) (h : b.closedQ = false) (tv : Int) :
    (b.seek tv 0).1 = tv ∧ (b.seek tv 0).2.1 = none ∧
    (b.seek tv 0).2.2.offsetF = tv ∧
    (b.seek tv 1).1 = b.offsetF + tv ∧ (b.seek tv 1).2.1 = none ∧
    (b.seek tv 1).2.2.offsetF = b.offsetF + tv ∧
    (b.seek tv 2).1 = (b.storeOf.data.length : Int) - tv ∧
    (b.seek tv 2).2.1 = none ∧
    (b.seek tv 2).2.2.offsetF = (b.storeOf.data.length : Int) - tv := by
  refine ⟨?_, ?_, ?_, ?_, ?_, ?_, ?_, ?_, ?_⟩ <;>
    simp [Buf.seek, h, apply_ite Buf.offsetF, Crunch.byteCapacity]

/-- Witness for C10 at a concrete input: a fresh two-byte root accepts a
seek to the negative offset -5 and reports it back with no error. -/
theorem c10_seek_unchecked_witness :
    (Buf.newBuffer "n" [[1, 2]]).closedQ = false ∧
    ((Buf.newBuffer "n" [[1, 2]]).seek (-5) 0).1 = -5 ∧
    ((Buf.newBuffer "n" [[1, 2]]).seek (-5) 0).2.1 = none ∧
    ((Buf.newBuffer "n" [[1, 2]]).seek (-5) 0).2.2.offsetF = -5 := by
  have h := c10_seek_unchecked (Buf.newBuffer "n" [[1, 2]]) rfl (-5)
  exact ⟨rfl, h.1, h.2.1, h.2.2.1⟩

end Crunchio
